import Mathlib

/-!
Shallow embedding of Acizza/nixos-update-status (src/main.rs).

The program is a single-shot CLI: it fetches the remote channel revision and
the local system revision, loads a persisted `UpdateState` record, applies a
transition, conditionally rewrites the state file, and prints a status line.

Modelling conventions:
- Rust `String` values are UTF-8 byte sequences; revisions are modelled as
  their byte lists (`List Nat`), since all the code does with them is compare
  for equality and serialize their bytes. User-facing message strings are
  modelled as `List Char` because the display logic works character-wise.
- `u32` arithmetic wraps modulo `2 ^ 32` (Rust release-build semantics of
  `missed + 1`), made explicit with `% 2 ^ 32`.
- The state file is an `Option (List Nat)`: `none` is an absent/unreadable
  file, `some bytes` its raw contents. `fs::read_to_string` succeeds exactly
  when the bytes are valid UTF-8 and then yields the same bytes.
- Fallible revision retrieval is an `Except String` value handed to
  `determine_system_state`; the `?` operator is the `.error` short-circuit.
-/

namespace NixosUpdateStatus

/-- Rust `type Revision = String`, modelled as its UTF-8 byte sequence. -/
abbrev Rev := List Nat

/-- Rust `type MissedUpdates = u32`; well-formed values are `< 2 ^ 32`. -/
abbrev MissedUpdates := Nat

/-- The persisted record (`enum UpdateState` in src/main.rs). -/
inductive UpdateState
  | Synced : UpdateState
  | Unsynced : MissedUpdates → Rev → UpdateState
  deriving DecidableEq, Repr

/-- Rust `impl Default for UpdateState`: the default record is `Synced`. -/
instance : Inhabited UpdateState := ⟨UpdateState.Synced⟩

/-! ## Binary codec (nanoserde `SerBin`/`DeBin` derive)

The derived codec writes the enum variant index as a little-endian `u16`,
then the payload fields in declaration order: the `u32` count as 4
little-endian bytes, and the `String` as a `usize` (8-byte little-endian)
byte-length prefix followed by its UTF-8 bytes. -/

/-- Little-endian byte encoding of `n` over `k` bytes (truncates to `k` bytes). -/
def leBytes : Nat → Nat → List Nat
  | 0, _ => []
  | k + 1, n => n % 256 :: leBytes k (n / 256)

/-- Value of a little-endian byte list. -/
def leVal : List Nat → Nat
  | [] => 0
  | b :: bs => b + 256 * leVal bs

/-- Read exactly `k` bytes from the front of the input, failing if too short. -/
def readBytes (k : Nat) (d : List Nat) : Option (List Nat × List Nat) :=
  if k ≤ d.length then some (d.take k, d.drop k) else none

/-- Is `b` a UTF-8 continuation byte (`0x80..=0xBF`)? -/
def isCont (b : Nat) : Bool := 0x80 ≤ b && b ≤ 0xBF

/-- UTF-8 validity of a byte sequence (RFC 3629, the check performed by
Rust's `str::from_utf8` / `fs::read_to_string`). -/
def validUTF8 : List Nat → Bool
  | [] => true
  | b :: rest =>
    if b ≤ 0x7F then validUTF8 rest
    else
      match rest with
      | [] => false
      | c1 :: rest1 =>
        if 0xC2 ≤ b && b ≤ 0xDF then isCont c1 && validUTF8 rest1
        else
          match rest1 with
          | [] => false
          | c2 :: rest2 =>
            if b == 0xE0 then (0xA0 ≤ c1 && c1 ≤ 0xBF) && isCont c2 && validUTF8 rest2
            else if (0xE1 ≤ b && b ≤ 0xEC) || b == 0xEE || b == 0xEF then
              isCont c1 && isCont c2 && validUTF8 rest2
            else if b == 0xED then (0x80 ≤ c1 && c1 ≤ 0x9F) && isCont c2 && validUTF8 rest2
            else
              match rest2 with
              | [] => false
              | c3 :: rest3 =>
                if b == 0xF0 then
                  (0x90 ≤ c1 && c1 ≤ 0xBF) && isCont c2 && isCont c3 && validUTF8 rest3
                else if 0xF1 ≤ b && b ≤ 0xF3 then
                  isCont c1 && isCont c2 && isCont c3 && validUTF8 rest3
                else if b == 0xF4 then
                  (0x80 ≤ c1 && c1 ≤ 0x8F) && isCont c2 && isCont c3 && validUTF8 rest3
                else false

/-- Encoding `SerBin::serialize_bin` for `UpdateState`: variant tag as `u16`, then the
`u32` count and the length-prefixed revision bytes for `Unsynced`. -/
def UpdateState.ser_bin : UpdateState → List Nat
  | .Synced => leBytes 2 0
  | .Unsynced missed rev => leBytes 2 1 ++ leBytes 4 missed ++ leBytes 8 rev.length ++ rev

/-- Decoding (`DeBin`) of the `String` payload: `usize` length prefix, then that many
bytes, which must be valid UTF-8 (`str::from_utf8` inside nanoserde). -/
def de_bin_str (d : List Nat) : Option (Rev × List Nat) :=
  match readBytes 8 d with
  | none => none
  | some (lenb, d1) =>
    match readBytes (leVal lenb) d1 with
    | none => none
    | some (sb, d2) => if validUTF8 sb then some (sb, d2) else none

/-- Decoding `DeBin::deserialize_bin` for `UpdateState`: read the `u16` tag, then the
payload of the matching variant; any other tag or truncation fails. -/
def UpdateState.de_bin (d : List Nat) : Option UpdateState :=
  match readBytes 2 d with
  | none => none
  | some (tag, d1) =>
    if leVal tag = 0 then some .Synced
    else if leVal tag = 1 then
      match readBytes 4 d1 with
      | none => none
      | some (cb, d2) =>
        match de_bin_str d2 with
        | none => none
        | some (rev, _) => some (.Unsynced (leVal cb) rev)
    else none

/-- Constructibility of a record in the Rust program: the count fits in a
`u32`, the revision's byte length fits in a `usize`, and the revision is a
real `String`, hence valid UTF-8. -/
def UpdateState.wf : UpdateState → Prop
  | .Synced => True
  | .Unsynced missed rev =>
      missed < 2 ^ 32 ∧ rev.length < 2 ^ 64 ∧ validUTF8 rev = true

instance : DecidablePred UpdateState.wf := fun s =>
  match s with
  | .Synced => isTrue trivial
  | .Unsynced _ _ => inferInstanceAs (Decidable (_ ∧ _ ∧ _))

/-! ## State store (`UpdateState::load` / `UpdateState::save`) -/

/-- Model of `fs::read_to_string`: succeeds iff the file bytes are valid UTF-8, and
`String::as_bytes` then returns exactly those bytes. -/
def read_to_string (bytes : List Nat) : Option (List Nat) :=
  if validUTF8 bytes then some bytes else none

/-- Loading (`UpdateState::load`): read the state file as a UTF-8 string, then decode
its bytes. Any failure (absent file, invalid UTF-8, undecodable) is `none`. -/
def UpdateState.load (state_file : Option (List Nat)) : Option UpdateState :=
  match state_file with
  | none => none
  | some bytes =>
    match read_to_string bytes with
    | none => none
    | some s => UpdateState.de_bin s

/-! ## The sync state machine (`UpdateState::determine_system_state`) -/

/-- The `match &state { ... }` block of `determine_system_state`
(src/main.rs lines 82-96), with `is_unsynced = remote_rev != current_rev`
inlined. Returns the new record and whether `save` was called. Guards are
evaluated in the source's priority order. -/
def state_transition (remote_rev current_rev : Rev) (state : UpdateState) :
    UpdateState × Bool :=
  match state with
  | .Synced =>
    if remote_rev ≠ current_rev then (.Unsynced 1 remote_rev, true)
    else (state, false)
  | .Unsynced missed last_rev =>
    if remote_rev ≠ current_rev ∧ remote_rev ≠ last_rev then
      (.Unsynced ((missed + 1) % 2 ^ 32) remote_rev, true)
    else if ¬remote_rev ≠ current_rev then (.Synced, true)
    else (state, false)

/-- Model of `UpdateState::determine_system_state`: obtain both revisions (each `?`
propagates an error with its `context` annotation and leaves the state file
untouched), load the previous record with `Synced` as fallback, apply the
transition, and write the new record's encoding iff a transition fired. -/
def determine_system_state (remote_fetch current_fetch : Except String Rev)
    (state_file : Option (List Nat)) :
    Except String UpdateState × Option (List Nat) :=
  match remote_fetch with
  | .error e => (.error ("getting latest channel version: " ++ e), state_file)
  | .ok remote_rev =>
    match current_fetch with
    | .error e => (.error ("getting current system version: " ++ e), state_file)
    | .ok current_rev =>
      let state := (UpdateState.load state_file).getD default
      let result := state_transition remote_rev current_rev state
      (.ok result.1, if result.2 then some result.1.ser_bin else state_file)

/-! ## Display (the message formatting in `main`) -/

/-- Rust `str::replace(pattern, to)` specialised to the single-character pattern
`"$"` used in `main`: every occurrence of `'$'` is replaced by `sub`,
every other character is kept. -/
def replaceAll (msg sub : List Char) : List Char :=
  match msg with
  | [] => []
  | c :: rest => (if c = '$' then sub else [c]) ++ replaceAll rest sub

/-- Decimal rendering of the missed count (`u32` `Display` / `format!`). -/
def decimal (n : Nat) : List Char := Nat.toDigits 10 n

/-- The message computation in `main` (src/main.rs lines 35-48): `Synced`
prints the synced message (default "synced"); `Unsynced` prints the default
"unsynced (n)" or the user template with `"$"` replaced by the count. -/
def display_message (synced_message unsynced_message : Option (List Char)) :
    UpdateState → List Char
  | .Synced => synced_message.getD "synced".toList
  | .Unsynced missed _ =>
    match unsynced_message with
    | none => "unsynced (".toList ++ decimal missed ++ ")".toList
    | some msg => replaceAll msg (decimal missed)

/-- The `missed_count ≥ 1` invariant of §3 of the specification. -/
def UpdateState.inv : UpdateState → Prop
  | .Synced => True
  | .Unsynced missed _ => missed ≠ 0

instance : DecidablePred UpdateState.inv := fun s =>
  match s with
  | .Synced => isTrue trivial
  | .Unsynced _ _ => inferInstanceAs (Decidable (_ ≠ _))

/-! ## Codec lemmas -/

theorem leBytes_length (k n : Nat) : (leBytes k n).length = k := by
  induction k generalizing n with
  | zero => rfl
  | succ k ih => simp [leBytes, ih]

theorem leVal_leBytes (k n : Nat) (h : n < 256 ^ k) : leVal (leBytes k n) = n := by
  induction k generalizing n with
  | zero =>
    simp only [pow_zero, Nat.lt_one_iff] at h
    simp [leBytes, leVal, h]
  | succ k ih =>
    have hdiv : n / 256 < 256 ^ k := by
      rw [Nat.div_lt_iff_lt_mul (by norm_num : 0 < 256)]
      rw [pow_succ] at h
      exact h
    simp only [leBytes, leVal, ih (n / 256) hdiv]
    omega

theorem readBytes_append (k : Nat) (a b : List Nat) (h : a.length = k) :
    readBytes k (a ++ b) = some (a, b) := by
  subst h
  rw [readBytes, if_pos (by simp)]
  rw [List.take_left, List.drop_left]

theorem readBytes_exact (a : List Nat) : readBytes a.length a = some (a, []) := by
  rw [readBytes, if_pos le_rfl, List.take_length, List.drop_length]

/-- The codec round trip: decoding the encoding of any constructible record
recovers it. Shared by the pure-codec and store-level claims. -/
theorem de_bin_ser_bin (x : UpdateState) (h : x.wf) :
    UpdateState.de_bin x.ser_bin = some x := by
  cases x with
  | Synced => rfl
  | Unsynced missed rev =>
    obtain ⟨hm, hl, hu⟩ := h
    rw [UpdateState.ser_bin, UpdateState.de_bin, List.append_assoc, List.append_assoc,
      readBytes_append 2 _ _ (leBytes_length 2 1)]
    dsimp only
    rw [leVal_leBytes 2 1 (by norm_num)]
    simp only [Nat.one_ne_zero, if_false, if_pos rfl]
    rw [readBytes_append 4 _ _ (leBytes_length 4 missed)]
    dsimp only
    rw [de_bin_str, readBytes_append 8 _ _ (leBytes_length 8 rev.length)]
    dsimp only
    rw [leVal_leBytes 8 rev.length (by norm_num at hl ⊢; exact hl)]
    rw [readBytes_exact rev]
    dsimp only
    rw [if_pos hu]
    dsimp only
    rw [leVal_leBytes 4 missed (by norm_num at hm ⊢; exact hm)]
    simp

/-! ## Transition lemmas -/

theorem state_transition_synced_diff (r l : Rev) (h : r ≠ l) :
    state_transition r l .Synced = (.Unsynced 1 r, true) := by
  simp [state_transition, h]

theorem state_transition_synced_eq (r l : Rev) (h : r = l) :
    state_transition r l .Synced = (.Synced, false) := by
  simp [state_transition, h]

theorem state_transition_advance (r l last : Rev) (n : Nat) (h1 : r ≠ l) (h2 : r ≠ last) :
    state_transition r l (.Unsynced n last) = (.Unsynced ((n + 1) % 2 ^ 32) r, true) := by
  simp [state_transition, h1, h2]

theorem state_transition_reset (r l last : Rev) (n : Nat) (h : r = l) :
    state_transition r l (.Unsynced n last) = (.Synced, true) := by
  simp [state_transition, h]

theorem state_transition_same_remote (r l last : Rev) (n : Nat) (h1 : r ≠ l) (h2 : r = last) :
    state_transition r l (.Unsynced n last) = (.Unsynced n last, false) := by
  subst h2
  simp [state_transition, h1]

theorem state_transition_write_cases (r l : Rev) (s : UpdateState)
    (h : (state_transition r l s).2 = true) :
    (s = .Synced ∧ r ≠ l) ∨
    (∃ n last, s = .Unsynced n last ∧ r ≠ l ∧ r ≠ last) ∨
    (∃ n last, s = .Unsynced n last ∧ r = l) := by
  cases s with
  | Synced =>
    by_cases hrl : r = l
    · rw [state_transition_synced_eq r l hrl] at h
      exact absurd h (by simp)
    · exact Or.inl ⟨rfl, hrl⟩
  | Unsynced n last =>
    by_cases hrl : r = l
    · exact Or.inr (Or.inr ⟨n, last, rfl, hrl⟩)
    · by_cases hrlast : r = last
      · rw [state_transition_same_remote r l last n hrl hrlast] at h
        exact absurd h (by simp)
      · exact Or.inr (Or.inl ⟨n, last, rfl, hrl, hrlast⟩)

/-! ## Display lemmas -/

theorem replaceAll_append (a b sub : List Char) :
    replaceAll (a ++ b) sub = replaceAll a sub ++ replaceAll b sub := by
  induction a with
  | nil => rfl
  | cons c rest ih => simp [replaceAll, ih]

theorem replaceAll_no_marker (l sub : List Char) (h : '$' ∉ l) :
    replaceAll l sub = l := by
  induction l with
  | nil => rfl
  | cons c rest ih =>
    have hc : c ≠ '$' := fun hc => h (hc ▸ List.mem_cons_self c rest)
    have hr : '$' ∉ rest := fun hr => h (List.mem_cons_of_mem c hr)
    simp [replaceAll, hc, ih hr]

theorem replaceAll_single_marker (a b sub : List Char) (ha : '$' ∉ a) (hb : '$' ∉ b) :
    replaceAll (a ++ '$' :: b) sub = a ++ sub ++ b := by
  rw [replaceAll_append, replaceAll_no_marker a sub ha]
  simp [replaceAll, replaceAll_no_marker b sub hb]

/-! ## Claims -/

/-- C1 counterexample: the claim says the advance transition yields
`Unsynced(n + 1, remote)`, but at `n = 2 ^ 32 - 1` the `u32` counter wraps:
the code yields `Unsynced(0, remote)`, not `Unsynced(n + 1, remote)`. -/
theorem claim_C1_counterexample :
    state_transition [0] [1] (.Unsynced (2 ^ 32 - 1) [2])
        ≠ (.Unsynced ((2 ^ 32 - 1) + 1) [0], true) ∧
    state_transition [0] [1] (.Unsynced (2 ^ 32 - 1) [2]) = (.Unsynced 0 [0], true) := by
  constructor
  · rw [state_transition_advance [0] [1] [2] (2 ^ 32 - 1) (by decide) (by decide)]
    decide
  · rw [state_transition_advance [0] [1] [2] (2 ^ 32 - 1) (by decide) (by decide)]
    decide

/-- C1 (amended): the state-changing transitions of the sync state machine
are exactly: previous `Synced` with `remote ≠ local` yields `Unsynced(1,
remote)` and a write; previous `Unsynced(n, last)` with `remote ≠ local` and
`remote ≠ last` yields `Unsynced((n + 1) mod 2 ^ 32, remote)` (the `u32`
successor, which wraps to 0 at `n = 2 ^ 32 - 1`) and a write; previous
`Unsynced(n, last)` with `remote = local` yields `Synced` and a write,
discarding the counter regardless of `n`. -/
theorem claim_C1_transitions :
    (∀ (r l : Rev), r ≠ l → state_transition r l .Synced = (.Unsynced 1 r, true)) ∧
    (∀ (r l last : Rev) (n : Nat), r ≠ l → r ≠ last →
      state_transition r l (.Unsynced n last) = (.Unsynced ((n + 1) % 2 ^ 32) r, true)) ∧
    (∀ (r l last : Rev) (n : Nat), r = l →
      state_transition r l (.Unsynced n last) = (.Synced, true)) ∧
    (∀ (r l : Rev) (s : UpdateState), (state_transition r l s).2 = true →
      (s = .Synced ∧ r ≠ l) ∨
      (∃ n last, s = .Unsynced n last ∧ r ≠ l ∧ r ≠ last) ∨
      (∃ n last, s = .Unsynced n last ∧ r = l)) :=
  ⟨state_transition_synced_diff, state_transition_advance,
   state_transition_reset, state_transition_write_cases⟩

/-- C1 witness: each transition of the amended claim at concrete inputs. -/
theorem claim_C1_witness :
    state_transition [0] [1] .Synced = (.Unsynced 1 [0], true) ∧
    state_transition [0] [1] (.Unsynced 3 [2]) = (.Unsynced ((3 + 1) % 2 ^ 32) [0], true) ∧
    state_transition [0] [0] (.Unsynced 3 [2]) = (.Synced, true) :=
  ⟨claim_C1_transitions.1 [0] [1] (by decide),
   claim_C1_transitions.2.1 [0] [1] [2] 3 (by decide) (by decide),
   claim_C1_transitions.2.2.1 [0] [0] [2] 3 rfl⟩

/-- C2: when no transition fires — previous `Synced` with `remote = local`,
or previous `Unsynced(n, last)` with `remote ≠ local` and `remote = last` —
the record returned equals the previous record, the write flag is false, and
`determine_system_state` leaves the state file untouched. -/
theorem claim_C2_no_write :
    (∀ (r l : Rev), r = l → state_transition r l .Synced = (.Synced, false)) ∧
    (∀ (r l last : Rev) (n : Nat), r ≠ l → r = last →
      state_transition r l (.Unsynced n last) = (.Unsynced n last, false)) ∧
    (∀ (r l : Rev) (state_file : Option (List Nat)),
      (state_transition r l ((UpdateState.load state_file).getD default)).2 = false →
      determine_system_state (.ok r) (.ok l) state_file =
        (.ok (state_transition r l ((UpdateState.load state_file).getD default)).1,
          state_file)) := by
  refine ⟨state_transition_synced_eq, state_transition_same_remote, ?_⟩
  intro r l state_file h
  simp only [determine_system_state, h, Bool.false_eq_true, if_false]

/-- C2 witness: both no-op cases at concrete inputs, plus the untouched
state file at a concrete invocation. -/
theorem claim_C2_witness :
    state_transition [0] [0] .Synced = (.Synced, false) ∧
    state_transition [0] [1] (.Unsynced 2 [0]) = (.Unsynced 2 [0], false) ∧
    determine_system_state (.ok [0]) (.ok [1])
        (some (UpdateState.ser_bin (.Unsynced 2 [0]))) =
      (.ok (state_transition [0] [1]
        ((UpdateState.load (some (UpdateState.ser_bin (.Unsynced 2 [0])))).getD default)).1,
        some (UpdateState.ser_bin (.Unsynced 2 [0]))) :=
  ⟨claim_C2_no_write.1 [0] [0] rfl,
   claim_C2_no_write.2.1 [0] [1] [0] 2 (by decide) rfl,
   claim_C2_no_write.2.2 [0] [1] (some (UpdateState.ser_bin (.Unsynced 2 [0]))) (by decide)⟩

/-- C3: for every constructible `SyncRecord` (`Synced`, or `Unsynced` with a
`u32` count and a revision string), decoding the bytes produced by encoding
it yields the record back: `de_bin (ser_bin x) = some x`. -/
theorem claim_C3_round_trip (x : UpdateState) (h : x.wf) :
    UpdateState.de_bin x.ser_bin = some x :=
  de_bin_ser_bin x h

/-- C3 witness: the round trip at a concrete `Unsynced` record. -/
theorem claim_C3_witness :
    UpdateState.wf (.Unsynced 1 [97, 98]) ∧
    UpdateState.de_bin (UpdateState.ser_bin (.Unsynced 1 [97, 98]))
      = some (.Unsynced 1 [97, 98]) :=
  ⟨by decide, claim_C3_round_trip (.Unsynced 1 [97, 98]) (by decide)⟩

/-- C4: on any load failure the record defaults to `Synced`, and the
invocation computes the same record as if the prior record had been an
explicit `Synced`; the failure is never fatal (the result is `ok`). -/
theorem claim_C4_load_failure (remote loc : Rev) (state_file : Option (List Nat))
    (h : UpdateState.load state_file = none) :
    (UpdateState.load state_file).getD default = .Synced ∧
    (determine_system_state (.ok remote) (.ok loc) state_file).1 =
      (determine_system_state (.ok remote) (.ok loc)
        (some (UpdateState.ser_bin .Synced))).1 ∧
    ∃ s, (determine_system_state (.ok remote) (.ok loc) state_file).1 = Except.ok s := by
  have hdec : UpdateState.load (some (UpdateState.ser_bin .Synced)) = some .Synced := by
    decide
  refine ⟨by rw [h]; rfl, ?_, ?_⟩
  · simp only [determine_system_state, h, hdec, Option.getD_some, Option.getD_none]
    rfl
  · exact ⟨_, rfl⟩

/-- C4 witness: an absent state file is a load failure and yields the same
record as an explicit `Synced` prior record. -/
theorem claim_C4_witness :
    UpdateState.load none = none ∧
    ((UpdateState.load none).getD default = .Synced ∧
      (determine_system_state (.ok [0]) (.ok [1]) none).1 =
        (determine_system_state (.ok [0]) (.ok [1])
          (some (UpdateState.ser_bin .Synced))).1 ∧
      ∃ s, (determine_system_state (.ok [0]) (.ok [1]) none).1 = Except.ok s) :=
  ⟨rfl, claim_C4_load_failure [0] [1] none rfl⟩

/-- C5 counterexample: the previous record `Unsynced(2 ^ 32 - 1, last)`
satisfies the `missed_count ≥ 1` invariant, yet the advance transition
produces `Unsynced(0, remote)`, violating it: the claim "missed_count ≥ 1 is
preserved by every transition" fails at the `u32` wrap. -/
theorem claim_C5_counterexample :
    UpdateState.inv (.Unsynced (2 ^ 32 - 1) [2]) ∧
    (state_transition [0] [1] (.Unsynced (2 ^ 32 - 1) [2])).1 = .Unsynced 0 [0] ∧
    ¬ UpdateState.inv ((state_transition [0] [1] (.Unsynced (2 ^ 32 - 1) [2])).1) := by
  refine ⟨by decide, ?_, ?_⟩
  · rw [state_transition_advance [0] [1] [2] (2 ^ 32 - 1) (by decide) (by decide)]
    decide
  · rw [state_transition_advance [0] [1] [2] (2 ^ 32 - 1) (by decide) (by decide)]
    decide

/-- C5 (amended): for every previous record satisfying the invariant whose
count, when it is `Unsynced`, is below `2 ^ 32 - 1`, the record produced by
the transition satisfies the invariant: an `Unsynced` result has a nonzero
missed count. -/
theorem claim_C5_invariant (r l : Rev) (s : UpdateState) (hinv : s.inv)
    (hcap : ∀ n last, s = .Unsynced n last → n < 2 ^ 32 - 1) :
    UpdateState.inv ((state_transition r l s).1) := by
  cases s with
  | Synced =>
    by_cases hrl : r = l
    · rw [state_transition_synced_eq r l hrl]
      trivial
    · rw [state_transition_synced_diff r l hrl]
      exact one_ne_zero
  | Unsynced n last =>
    by_cases hrl : r = l
    · rw [state_transition_reset r l last n hrl]
      trivial
    · by_cases hrlast : r = last
      · rw [state_transition_same_remote r l last n hrl hrlast]
        exact hinv
      · rw [state_transition_advance r l last n hrl hrlast]
        have hn := hcap n last rfl
        have hlt : n + 1 < 2 ^ 32 := by
          have h1 : n + 1 < (2 ^ 32 - 1) + 1 := Nat.add_lt_add_right hn 1
          have h2 : (2 ^ 32 - 1) + 1 = 2 ^ 32 := by norm_num
          rw [h2] at h1
          exact h1
        have hmod : (n + 1) % 2 ^ 32 = n + 1 := Nat.mod_eq_of_lt hlt
        show UpdateState.inv (.Unsynced ((n + 1) % 2 ^ 32) r)
        rw [hmod]
        exact Nat.succ_ne_zero n

/-- C5 witness: the invariant is preserved at a concrete advance step. -/
theorem claim_C5_witness :
    UpdateState.inv (.Unsynced 3 [2]) ∧
    UpdateState.inv ((state_transition [0] [1] (.Unsynced 3 [2])).1) :=
  ⟨by decide,
   claim_C5_invariant [0] [1] (.Unsynced 3 [2]) (by decide)
     (by rintro n last h; injection h with h1 h2; subst h1; decide)⟩

/-- C6: whenever an `Unsynced` record is written (the transition returns it
with the write flag set), its `last_seen_remote_revision` equals the remote
revision observed during that invocation. -/
theorem claim_C6_last_seen (r l : Rev) (s : UpdateState) (n : Nat) (last : Rev)
    (h : state_transition r l s = (.Unsynced n last, true)) : last = r := by
  cases s with
  | Synced =>
    by_cases hrl : r = l
    · rw [state_transition_synced_eq r l hrl] at h
      exact absurd h (by simp)
    · rw [state_transition_synced_diff r l hrl] at h
      simp only [Prod.mk.injEq, UpdateState.Unsynced.injEq] at h
      exact h.1.2.symm
  | Unsynced m lastr =>
    by_cases hrl : r = l
    · rw [state_transition_reset r l lastr m hrl] at h
      exact absurd h (by simp)
    · by_cases hrlast : r = lastr
      · rw [state_transition_same_remote r l lastr m hrl hrlast] at h
        exact absurd h (by simp)
      · rw [state_transition_advance r l lastr m hrl hrlast] at h
        simp only [Prod.mk.injEq, UpdateState.Unsynced.injEq] at h
        exact h.1.2.symm

/-- C6 witness: a concrete write of an `Unsynced` record carries the
observed remote revision. -/
theorem claim_C6_witness :
    state_transition [0] [1] .Synced = (.Unsynced 1 [0], true) ∧ ([0] : Rev) = [0] :=
  ⟨by decide, claim_C6_last_seen [0] [1] .Synced 1 [0] (by decide)⟩

/-- C7: when retrieval of either revision fails, the invocation returns the
propagated error with its context annotation and the state file is left
exactly as it was: the save step is never reached. -/
theorem claim_C7_no_partial_state :
    (∀ (e : String) (cf : Except String Rev) (state_file : Option (List Nat)),
      (determine_system_state (.error e) cf state_file).2 = state_file ∧
      (determine_system_state (.error e) cf state_file).1 =
        .error ("getting latest channel version: " ++ e)) ∧
    (∀ (r : Rev) (e : String) (state_file : Option (List Nat)),
      (determine_system_state (.ok r) (.error e) state_file).2 = state_file ∧
      (determine_system_state (.ok r) (.error e) state_file).1 =
        .error ("getting current system version: " ++ e)) :=
  ⟨fun _ _ _ => ⟨rfl, rfl⟩, fun _ _ _ => ⟨rfl, rfl⟩⟩

/-- C8: the store-level round trip holds exactly when the binary encoding is
valid UTF-8, because `load` goes through `fs::read_to_string` while `save`
writes raw bytes: a record with a UTF-8-valid encoding is loaded back
intact; a record whose encoding is not valid UTF-8 fails to load and the
next invocation falls back to `Synced`; such records exist (an `Unsynced`
count whose byte representation contains `0x80`). -/
theorem claim_C8_store_round_trip (x : UpdateState) (h : x.wf) :
    (validUTF8 x.ser_bin = true →
      UpdateState.load (some x.ser_bin) = some x) ∧
    (validUTF8 x.ser_bin = false →
      UpdateState.load (some x.ser_bin) = none ∧
      (UpdateState.load (some x.ser_bin)).getD default = .Synced) ∧
    (UpdateState.wf (.Unsynced 128 []) ∧
      validUTF8 (UpdateState.ser_bin (.Unsynced 128 [])) = false) := by
  refine ⟨?_, ?_, by decide, by decide⟩
  · intro hv
    show (match read_to_string x.ser_bin with
      | none => none
      | some s => UpdateState.de_bin s) = some x
    rw [read_to_string, if_pos hv]
    exact de_bin_ser_bin x h
  · intro hv
    have hload : UpdateState.load (some x.ser_bin) = none := by
      show (match read_to_string x.ser_bin with
        | none => none
        | some s => UpdateState.de_bin s) = none
      rw [read_to_string, if_neg (by rw [hv]; exact Bool.false_ne_true)]
    exact ⟨hload, by rw [hload]; rfl⟩

/-- C8 witness: a record with an ASCII encoding loads back intact; the
record `Unsynced(128, "")` has a non-UTF-8 encoding and fails to load. -/
theorem claim_C8_witness :
    (UpdateState.wf (.Unsynced 1 [97]) ∧
      UpdateState.load (some (UpdateState.ser_bin (.Unsynced 1 [97])))
        = some (.Unsynced 1 [97])) ∧
    (UpdateState.wf (.Unsynced 128 []) ∧
      UpdateState.load (some (UpdateState.ser_bin (.Unsynced 128 []))) = none) :=
  ⟨⟨by decide, (claim_C8_store_round_trip (.Unsynced 1 [97]) (by decide)).1 (by decide)⟩,
   ⟨by decide,
    ((claim_C8_store_round_trip (.Unsynced 128 []) (by decide)).2.1 (by decide)).1⟩⟩

/-- C9: the missed count is a `u32` and the advance transition computes the
unchecked successor `n + 1` modulo `2 ^ 32`: below `2 ^ 32 - 1` the
successor is exactly `n + 1`; at `n = 2 ^ 32 - 1` it wraps to 0, so the
`missed_count ≥ 1` invariant is preserved only under `n < 2 ^ 32 - 1`. -/
theorem claim_C9_u32_wrap (r l last : Rev) (n : Nat) (h1 : r ≠ l) (h2 : r ≠ last) :
    (state_transition r l (.Unsynced n last)).1 = .Unsynced ((n + 1) % 2 ^ 32) r ∧
    (n < 2 ^ 32 - 1 → (n + 1) % 2 ^ 32 = n + 1) ∧
    (n = 2 ^ 32 - 1 →
      (state_transition r l (.Unsynced n last)).1 = .Unsynced 0 r ∧
      ¬ UpdateState.inv ((state_transition r l (.Unsynced n last)).1)) := by
  have hadv := state_transition_advance r l last n h1 h2
  refine ⟨by rw [hadv], ?_, ?_⟩
  · intro hn
    have hlt : n + 1 < 2 ^ 32 := by
      have ha : n + 1 < (2 ^ 32 - 1) + 1 := Nat.add_lt_add_right hn 1
      have hb : (2 ^ 32 - 1) + 1 = 2 ^ 32 := by norm_num
      rw [hb] at ha
      exact ha
    exact Nat.mod_eq_of_lt hlt
  · intro hn
    subst hn
    rw [hadv]
    constructor
    · show UpdateState.Unsynced ((2 ^ 32 - 1 + 1) % 2 ^ 32) r = .Unsynced 0 r
      norm_num
    · show ¬ UpdateState.inv (.Unsynced ((2 ^ 32 - 1 + 1) % 2 ^ 32) r)
      norm_num [UpdateState.inv]

/-- C9 witness: the wrap at `n = 2 ^ 32 - 1` on concrete revisions. -/
theorem claim_C9_witness :
    (state_transition [0] [1] (.Unsynced (2 ^ 32 - 1) [2])).1 = .Unsynced 0 [0] ∧
    ¬ UpdateState.inv ((state_transition [0] [1] (.Unsynced (2 ^ 32 - 1) [2])).1) :=
  (claim_C9_u32_wrap [0] [1] [2] (2 ^ 32 - 1) (by decide) (by decide)).2.2 rfl

/-- C10: `Synced` displays as "synced" (or the user-supplied synced
message); `Unsynced(n, _)` displays as "unsynced (n)" with the decimal count
by default; with a custom template, the `"$"` marker is replaced by the
decimal count and no other part of the template is altered. -/
theorem claim_C10_display :
    (∀ (u : Option (List Char)), display_message none u .Synced = "synced".toList) ∧
    (∀ (m : List Char) (u : Option (List Char)), display_message (some m) u .Synced = m) ∧
    (∀ (s : Option (List Char)) (n : Nat) (rev : Rev),
      display_message s none (.Unsynced n rev) =
        "unsynced (".toList ++ decimal n ++ ")".toList) ∧
    (∀ (s : Option (List Char)) (a b : List Char) (n : Nat) (rev : Rev),
      '$' ∉ a → '$' ∉ b →
      display_message s (some (a ++ '$' :: b)) (.Unsynced n rev) =
        a ++ decimal n ++ b) := by
  refine ⟨fun _ => rfl, fun _ _ => rfl, fun _ _ _ => rfl, ?_⟩
  intro s a b n rev ha hb
  show replaceAll (a ++ '$' :: b) (decimal n) = a ++ decimal n ++ b
  rw [replaceAll_single_marker a b (decimal n) ha hb, List.append_assoc]

/-- C10 witness: the template "upd: $!" with count 5 renders as "upd: 5!". -/
theorem claim_C10_witness :
    display_message none (some ("upd: ".toList ++ '$' :: "!".toList)) (.Unsynced 5 [2]) =
      "upd: ".toList ++ decimal 5 ++ "!".toList ∧
    "upd: ".toList ++ decimal 5 ++ "!".toList = "upd: 5!".toList :=
  ⟨claim_C10_display.2.2.2 none "upd: ".toList "!".toList 5 [2]
    (by decide) (by decide), by decide⟩

end NixosUpdateStatus
